import Mathlib

/-!
Verification development for a gesture controlled 3D scene application.
The definitions below are shallow embeddings of the application code:
the gesture classifier and the application state machine (App.tsx and
the HandManager component), the layout generator (utils/math.ts), and
the per frame animator (the ChristmasScene components).  Quantities the
code stores in floating point are modelled exactly: as rationals where
the code only performs field arithmetic, and as real numbers where
square roots and trigonometry occur.
-/

namespace GestureTree

/-- Application mode from types.ts (AppState).  TREE is the assembled
configuration, EXPLODED the dispersed one, FOCUS the detail view. -/
inductive AppState
  | TREE
  | EXPLODED
  | FOCUS
deriving DecidableEq

/-- One hand landmark sample in normalized image coordinates; the code
reads only the x and y fields.  Coordinates are exact rationals. -/
structure Landmark where
  x : ℚ
  y : ℚ
deriving DecidableEq

instance : Inhabited Landmark := ⟨⟨0, 0⟩⟩

/-- Gesture signal from types.ts (HandGesture). -/
structure HandGesture where
  isFist : Bool
  isOpenPalm : Bool
  isPinching : Bool
  handPosition : ℚ × ℚ
  rotation : ℚ
deriving DecidableEq

/-- State machine of handleGestureUpdate in App.tsx.  Both if statements
in the open palm branch read the same appState snapshot captured by the
callback, which the sequential model below reproduces: s1 is the state
written by the first conditional, and the second conditional still tests
the original snapshot s. -/
def handleGestureUpdate (g : HandGesture) (s : AppState) : AppState :=
  if g.isFist then
    AppState.TREE
  else if g.isOpenPalm then
    let s1 := if s ≠ AppState.EXPLODED ∧ s ≠ AppState.FOCUS then AppState.EXPLODED else s
    if s = AppState.FOCUS then AppState.EXPLODED else s1
  else if g.isPinching then
    if s = AppState.EXPLODED then AppState.FOCUS else s
  else
    s

/-- Reference transition function, written from the claim text: a closed
hand always assembles, else an open hand always disperses (from every
mode), else a pinch focuses only from the dispersed mode, else the mode
is unchanged. -/
def specTransition (g : HandGesture) (s : AppState) : AppState :=
  if g.isFist then
    AppState.TREE
  else if g.isOpenPalm then
    AppState.EXPLODED
  else if g.isPinching then
    if s = AppState.EXPLODED then AppState.FOCUS else s
  else
    s

/-- C1: the App.tsx gesture state machine, evaluated once per incoming
gesture signal, equals the reference transition function: closed hand
forces TREE from any mode; else an open hand yields EXPLODED from any
mode (in particular FOCUS goes to EXPLODED, not TREE); else a pinch in
EXPLODED yields FOCUS; otherwise the mode persists. -/
theorem C1_state_machine_matches_reference (g : HandGesture) (s : AppState) :
    handleGestureUpdate g s = specTransition g s := by
  cases g with
  | mk f o p pos r => cases f <;> cases o <;> cases p <;> cases s <;> rfl

/-- Neutral gesture produced when no hand is detected, from the else
branch of hands.onResults in HandManager. -/
def neutralGesture : HandGesture :=
  { isFist := false
    isOpenPalm := false
    isPinching := false
    handPosition := (0.5, 0.5)
    rotation := 0 }

/-- Distance from one fingertip to the wrist: the loop body of the
average distance computation in hands.onResults, sqrt of dx*dx + dy*dy
with the exact coordinate differences read as reals. -/
noncomputable def tipDist (tip wrist : Landmark) : ℝ :=
  let dx : ℝ := (tip.x : ℝ) - (wrist.x : ℝ)
  let dy : ℝ := (tip.y : ℝ) - (wrist.y : ℝ)
  Real.sqrt (dx * dx + dy * dy)

/-- Thumb tip to index tip distance from hands.onResults, written with
squares as in the source (Math.pow of the differences). -/
noncomputable def pinchDistCode (thumbTip indexTip : Landmark) : ℝ :=
  Real.sqrt (((thumbTip.x : ℝ) - (indexTip.x : ℝ)) ^ 2 +
    ((thumbTip.y : ℝ) - (indexTip.y : ℝ)) ^ 2)

/-- Body of hands.onResults once all seven landmark reads have
succeeded: wrist is landmark 0, the four fingertips are landmarks 8, 12,
16 and 20, the thumb tip is landmark 4 and mid is landmark 9 (the middle
finger base used for the pointer). -/
noncomputable def classifyCore
    (wrist t8 t12 t16 t20 thumbTip mid : Landmark) : HandGesture :=
  let avgDist : ℝ :=
    (tipDist t8 wrist + tipDist t12 wrist + tipDist t16 wrist + tipDist t20 wrist) / 4
  { isFist := decide (avgDist < 0.25)
    isOpenPalm := decide (avgDist > 0.4)
    isPinching := decide (pinchDistCode thumbTip t8 < 0.05)
    handPosition := (1 - mid.x, mid.y)
    rotation := wrist.x }

/-- Classification of the first detected hand.  The handler indexes the
landmark array at 0, 8, 12, 16, 20, 4 and 9 without any length check; in
the source an out of range index yields undefined and the following
property read throws, which the Option result models: none stands for
the thrown TypeError. -/
noncomputable def classifyHand (l : List Landmark) : Option HandGesture :=
  match l[0]?, l[8]?, l[12]?, l[16]?, l[20]?, l[4]?, l[9]? with
  | some wrist, some t8, some t12, some t16, some t20, some thumbTip, some mid =>
      some (classifyCore wrist t8 t12 t16 t20 thumbTip mid)
  | _, _, _, _, _, _, _ => none

/-- hands.onResults: when results.multiHandLandmarks is absent or empty
the neutral gesture is produced, otherwise the first hand is
classified. -/
noncomputable def classifyResults
    (multiHandLandmarks : Option (List (List Landmark))) : Option HandGesture :=
  match multiHandLandmarks with
  | some (l :: _) => classifyHand l
  | _ => some neutralGesture

/-- C6: whenever no hand landmarks are present (the field is absent or
the hand list is empty) the classifier returns exactly the neutral
signal: all three booleans false, pointer at (0.5, 0.5), rotation hint
0. -/
theorem C6_no_hand_gives_neutral :
    classifyResults none = some ⟨false, false, false, (0.5, 0.5), 0⟩
    ∧ classifyResults (some []) = some ⟨false, false, false, (0.5, 0.5), 0⟩ :=
  ⟨rfl, rfl⟩

lemma classifyHand_some (l : List Landmark) (g : HandGesture)
    (h : classifyHand l = some g) :
    ∃ wrist t8 t12 t16 t20 thumbTip mid,
      g = classifyCore wrist t8 t12 t16 t20 thumbTip mid := by
  unfold classifyHand at h
  split at h
  · exact ⟨_, _, _, _, _, _, _, (Option.some.inj h).symm⟩
  · exact Option.noConfusion h

/-- C4 counterexample: a present hand whose landmark list holds a single
point is not treated like the no hand case; the classifier fails (the
read of landmark 8 throws) instead of returning the neutral signal. -/
theorem C4_cex_single_point_not_neutral :
    classifyResults (some [[({ x := 0, y := 0 } : Landmark)]]) ≠ some neutralGesture := by
  intro h
  have h2 : (none : Option HandGesture) = some neutralGesture := h
  exact Option.noConfusion h2

/-- C4 (amended): a malformed landmark set with fewer than 21 points
makes the classifier fail with a thrown landmark access (modelled as
none) instead of degrading to the neutral signal; only an absent or
empty hand list produces the neutral signal. -/
theorem C4_short_landmarks_throw (l : List Landmark)
    (rest : List (List Landmark)) (h : l.length < 21) :
    classifyResults (some (l :: rest)) = none := by
  have h20 : l[20]? = none := List.getElem?_eq_none (by omega)
  show classifyHand l = none
  unfold classifyHand
  rw [h20]
  cases l[0]? <;> cases l[8]? <;> cases l[12]? <;> cases l[16]? <;>
    cases l[4]? <;> cases l[9]? <;> rfl

theorem C4_short_landmarks_throw_witness :
    classifyResults (some [[({ x := 0, y := 0 } : Landmark),
      { x := 1, y := 0 }]]) = none :=
  C4_short_landmarks_throw [{ x := 0, y := 0 }, { x := 1, y := 0 }] [] (by decide)

/-- C10: the closed hand and open hand flags can never be simultaneously
true in any classifier output: the first requires the average fingertip
distance to be below 0.25 and the second requires it to be above 0.4. -/
theorem C10_fist_open_exclusive (mh : Option (List (List Landmark)))
    (g : HandGesture) (h : classifyResults mh = some g) :
    ¬ (g.isFist = true ∧ g.isOpenPalm = true) := by
  rintro ⟨hf, ho⟩
  cases mh with
  | none =>
      have hg : neutralGesture = g := Option.some.inj h
      rw [← hg] at hf
      simp [neutralGesture] at hf
  | some ll =>
      cases ll with
      | nil =>
          have hg : neutralGesture = g := Option.some.inj h
          rw [← hg] at hf
          simp [neutralGesture] at hf
      | cons l rest =>
          have h2 : classifyHand l = some g := h
          obtain ⟨w, a, b, c, d, e, f, hg⟩ := classifyHand_some l g h2
          subst hg
          simp only [classifyCore, decide_eq_true_eq] at hf ho
          linarith

theorem C10_fist_open_exclusive_witness :
    ¬ (neutralGesture.isFist = true ∧ neutralGesture.isOpenPalm = true) :=
  C10_fist_open_exclusive none neutralGesture rfl

/-- Euclidean distance between two landmark points, written from the
spec wording (Euclidean distance in normalized image coordinates). -/
noncomputable def edistL (a b : Landmark) : ℝ :=
  Real.sqrt (((a.x : ℝ) - (b.x : ℝ)) * ((a.x : ℝ) - (b.x : ℝ)) +
    ((a.y : ℝ) - (b.y : ℝ)) * ((a.y : ℝ) - (b.y : ℝ)))

/-- Mean Euclidean distance from the wrist landmark (index 0) to the
index, middle, ring and pinky fingertip landmarks (indices 8, 12, 16,
20), written from the spec wording. -/
noncomputable def meanTipWristDist (l : List Landmark) : ℝ :=
  (edistL (l.getD 8 default) (l.getD 0 default) +
   edistL (l.getD 12 default) (l.getD 0 default) +
   edistL (l.getD 16 default) (l.getD 0 default) +
   edistL (l.getD 20 default) (l.getD 0 default)) / 4

/-- Euclidean distance between the thumb tip landmark (index 4) and the
index fingertip landmark (index 8), written from the spec wording. -/
noncomputable def thumbIndexDist (l : List Landmark) : ℝ :=
  edistL (l.getD 4 default) (l.getD 8 default)

lemma tipDist_eq_edistL (a b : Landmark) : tipDist a b = edistL a b := rfl

lemma pinchDistCode_eq_edistL (a b : Landmark) :
    pinchDistCode a b = edistL a b := by
  simp only [pinchDistCode, edistL, pow_two]

/-- C5: on every well formed 21 point landmark set the classifier
succeeds, and its closed hand flag holds exactly when the mean wrist to
fingertip distance is below 0.25, its open hand flag exactly when that
mean is above 0.4, and its pinch flag exactly when the thumb tip to
index tip distance is below 0.05. -/
theorem C5_threshold_classification (l : List Landmark) (h : l.length = 21) :
    ∃ g, classifyHand l = some g
      ∧ (g.isFist = true ↔ meanTipWristDist l < 0.25)
      ∧ (g.isOpenPalm = true ↔ meanTipWristDist l > 0.4)
      ∧ (g.isPinching = true ↔ thumbIndexDist l < 0.05) := by
  have e : ∀ j, j < 21 → l[j]? = some (l.getD j default) := by
    intro j hj
    have hj2 : j < l.length := by omega
    rw [List.getElem?_eq_getElem hj2, List.getD_eq_getElem l default hj2]
  refine ⟨classifyCore (l.getD 0 default) (l.getD 8 default) (l.getD 12 default)
      (l.getD 16 default) (l.getD 20 default) (l.getD 4 default) (l.getD 9 default),
    ?_, ?_, ?_, ?_⟩
  · unfold classifyHand
    rw [e 0 (by omega), e 8 (by omega), e 12 (by omega), e 16 (by omega),
      e 20 (by omega), e 4 (by omega), e 9 (by omega)]
  · simp only [classifyCore, decide_eq_true_eq, tipDist_eq_edistL, meanTipWristDist]
  · simp only [classifyCore, decide_eq_true_eq, tipDist_eq_edistL, meanTipWristDist]
  · simp only [classifyCore, decide_eq_true_eq, pinchDistCode_eq_edistL, thumbIndexDist]

theorem C5_threshold_classification_witness :
    ∃ g, classifyHand (List.replicate 21 ({ x := 0, y := 0 } : Landmark)) = some g
      ∧ (g.isFist = true ↔
          meanTipWristDist (List.replicate 21 ({ x := 0, y := 0 } : Landmark)) < 0.25)
      ∧ (g.isOpenPalm = true ↔
          meanTipWristDist (List.replicate 21 ({ x := 0, y := 0 } : Landmark)) > 0.4)
      ∧ (g.isPinching = true ↔
          thumbIndexDist (List.replicate 21 ({ x := 0, y := 0 } : Landmark)) < 0.05) :=
  C5_threshold_classification (List.replicate 21 { x := 0, y := 0 }) (by decide)

/-- Real valued 3 vector for the layout generator (THREE.Vector3). -/
structure Vec3R where
  x : ℝ
  y : ℝ
  z : ℝ

/-- Euler angles record (THREE.Euler). -/
structure EulerR where
  x : ℝ
  y : ℝ
  z : ℝ

/-- Particle shape from types.ts (ParticleData type field). -/
inductive PType
  | SPHERE
  | CUBE
  | PHOTO
deriving DecidableEq

/-- The four colors of the COLORS table in utils/math.ts. -/
inductive TreeColor
  | GREEN
  | GOLD
  | RED
  | WHITE
deriving DecidableEq

/-- Item descriptor from types.ts (ParticleData). -/
structure ParticleR where
  id : ℕ
  position : Vec3R
  targetPosition : Vec3R
  treePosition : Vec3R
  explodedPosition : Vec3R
  rotation : EulerR
  scale : ℝ
  color : TreeColor
  type : PType
  textureUrl : Option String

def treeHeight : ℝ := 18

def bottomRadius : ℝ := 7

noncomputable def goldenAngle : ℝ := Real.pi * (3 - Real.sqrt 5)

def explodeRadius : ℝ := 25

/-- Squared Euclidean norm of a layout vector. -/
def normSqR (v : Vec3R) : ℝ := v.x ^ 2 + v.y ^ 2 + v.z ^ 2

/-- One iteration of the generateTreeLayout loop in utils/math.ts,
building the descriptor of item i.  The Math.random() sequence is
modelled as the stream rand, and k is the index of the first draw this
iteration consumes; the draws appear in the evaluation order of the
source (radius jitter, theta, phi, then the category draw for non photo
items, then the two rotation angles and the non photo scale draw inside
the object literal). -/
noncomputable def mkParticle (rand : ℕ → ℝ) (count : ℕ) (urls : List String)
    (i k : ℕ) : ParticleR :=
  let y : ℝ := ((i : ℝ) / (count : ℝ)) * treeHeight
  let inverseY : ℝ := 1 - y / treeHeight
  let angle : ℝ := (i : ℝ) * goldenAngle
  let radius : ℝ := bottomRadius * inverseY + rand k * 0.5
  let treePos : Vec3R := ⟨Real.cos angle * radius, y - treeHeight / 2, Real.sin angle * radius⟩
  let theta : ℝ := rand (k + 1) * Real.pi * 2
  let phi : ℝ := Real.arccos (rand (k + 2) * 2 - 1)
  let explodedPos : Vec3R :=
    ⟨explodeRadius * Real.sin phi * Real.cos theta,
     explodeRadius * Real.sin phi * Real.sin theta,
     explodeRadius * Real.cos phi⟩
  let tc : PType × TreeColor :=
    if i < urls.length then (PType.PHOTO, TreeColor.WHITE)
    else
      let r := rand (k + 3)
      if r > 0.9 then (PType.CUBE, TreeColor.GOLD)
      else if r > 0.7 then (PType.SPHERE, TreeColor.RED)
      else if r > 0.6 then (PType.SPHERE, TreeColor.GOLD)
      else (PType.SPHERE, TreeColor.GREEN)
  let kr : ℕ := if i < urls.length then k + 3 else k + 4
  { id := i
    position := explodedPos
    targetPosition := treePos
    treePosition := treePos
    explodedPosition := explodedPos
    rotation := ⟨rand kr * Real.pi, rand (kr + 1) * Real.pi, 0⟩
    scale := if i < urls.length then 1.5 else rand (k + 6) * 0.3 + 0.1
    color := tc.2
    type := tc.1
    textureUrl := if i < urls.length then urls[i]? else none }

/-- Number of Math.random() draws one loop iteration consumes: radius
jitter, theta, phi and the two rotation angles always, plus the
category and scale draws for non photo items. -/
def drawsUsed (urls : List String) (i : ℕ) : ℕ :=
  if i < urls.length then 5 else 7

/-- The generateTreeLayout loop from index i with fuel iterations left
and the random stream positioned at k. -/
noncomputable def genGo (rand : ℕ → ℝ) (count : ℕ) (urls : List String) :
    ℕ → ℕ → ℕ → List ParticleR
  | _, _, 0 => []
  | i, k, fuel + 1 =>
      mkParticle rand count urls i k ::
        genGo rand count urls (i + 1) (k + drawsUsed urls i) fuel

/-- generateTreeLayout from utils/math.ts: count loop iterations
starting at item 0 with the random stream at its start. -/
noncomputable def generateTreeLayout (rand : ℕ → ℝ) (count : ℕ)
    (urls : List String) : List ParticleR :=
  genGo rand count urls 0 0 count

lemma genGo_length (rand : ℕ → ℝ) (count : ℕ) (urls : List String) :
    ∀ fuel i k, (genGo rand count urls i k fuel).length = fuel := by
  intro fuel
  induction fuel with
  | zero => intro i k; rfl
  | succ n ih =>
      intro i k
      simpa [genGo] using ih (i + 1) (k + drawsUsed urls i)

lemma mkParticle_id (rand : ℕ → ℝ) (count : ℕ) (urls : List String) (i k : ℕ) :
    (mkParticle rand count urls i k).id = i := rfl

lemma genGo_map_id (rand : ℕ → ℝ) (count : ℕ) (urls : List String) :
    ∀ fuel i k, (genGo rand count urls i k fuel).map (fun p => p.id)
      = List.range' i fuel := by
  intro fuel
  induction fuel with
  | zero => intro i k; rfl
  | succ n ih =>
      intro i k
      rw [List.range'_succ]
      simpa [genGo, mkParticle_id] using ih (i + 1) (k + drawsUsed urls i)

lemma genGo_getElem (rand : ℕ → ℝ) (count : ℕ) (urls : List String) :
    ∀ fuel i k j, j < fuel → ∃ kk,
      (genGo rand count urls i k fuel)[j]? = some (mkParticle rand count urls (i + j) kk) := by
  intro fuel
  induction fuel with
  | zero => intro i k j hj; omega
  | succ n ih =>
      intro i k j hj
      cases j with
      | zero =>
          refine ⟨k, ?_⟩
          simp [genGo]
      | succ m =>
          obtain ⟨kk, hk⟩ := ih (i + 1) (k + drawsUsed urls i) m (by omega)
          refine ⟨kk, ?_⟩
          have hi : i + (m + 1) = i + 1 + m := by omega

          rw [hi]
          simpa [genGo] using hk

lemma mkParticle_type_photo (rand : ℕ → ℝ) (count : ℕ) (urls : List String)
    (i k : ℕ) (h : i < urls.length) :
    (mkParticle rand count urls i k).type = PType.PHOTO := by
  simp [mkParticle, h]

lemma mkParticle_type_ne_photo (rand : ℕ → ℝ) (count : ℕ) (urls : List String)
    (i k : ℕ) (h : ¬ i < urls.length) :
    (mkParticle rand count urls i k).type ≠ PType.PHOTO := by
  simp only [mkParticle, if_neg h]
  split_ifs <;> simp

lemma mkParticle_texture (rand : ℕ → ℝ) (count : ℕ) (urls : List String)
    (i k : ℕ) (h : i < urls.length) :
    (mkParticle rand count urls i k).textureUrl = urls[i]? := by
  simp [mkParticle, h]

/-- C7: the layout generator is total and, for every count and every
media list, returns exactly count descriptors whose ids are exactly
0..count-1 in order (hence unique); count 0 yields the empty list; and
an item is of photo (Media) kind exactly when its index falls in the
first len(urls) indices, in which case its texture handle is the url at
the same index. -/
theorem C7_layout_count_ids_media (rand : ℕ → ℝ) (count : ℕ) (urls : List String) :
    (generateTreeLayout rand count urls).length = count
    ∧ (generateTreeLayout rand count urls).map (fun p => p.id) = List.range count
    ∧ (count = 0 → generateTreeLayout rand count urls = [])
    ∧ ∀ i, i < count → ∃ p, (generateTreeLayout rand count urls)[i]? = some p
        ∧ (p.type = PType.PHOTO ↔ i < urls.length)
        ∧ (i < urls.length → p.textureUrl = urls[i]?) := by
  refine ⟨genGo_length rand count urls count 0 0, ?_, ?_, ?_⟩
  · rw [generateTreeLayout, genGo_map_id, List.range_eq_range']
  · intro h
    subst h
    rfl
  · intro i hi
    obtain ⟨kk, hk⟩ := genGo_getElem rand count urls count 0 0 i hi
    rw [Nat.zero_add] at hk
    refine ⟨mkParticle rand count urls i kk, hk, ?_, ?_⟩
    · constructor
      · intro hp
        by_contra hn
        exact mkParticle_type_ne_photo rand count urls i kk hn hp
      · exact mkParticle_type_photo rand count urls i kk
    · exact mkParticle_texture rand count urls i kk

theorem C7_layout_count_ids_media_witness :
    ((generateTreeLayout (fun _ => 0) 2 ["a"]).map (fun p => p.id) = List.range 2)
    ∧ ∃ p, (generateTreeLayout (fun _ => 0) 2 ["a"])[0]? = some p
        ∧ (p.type = PType.PHOTO ↔ 0 < (["a"] : List String).length)
        ∧ (0 < (["a"] : List String).length → p.textureUrl = (["a"] : List String)[0]?) :=
  ⟨(C7_layout_count_ids_media (fun _ => 0) 2 ["a"]).2.1,
   (C7_layout_count_ids_media (fun _ => 0) 2 ["a"]).2.2.2 0 (by decide)⟩

lemma normSq_sphere (R θ φ : ℝ) :
    normSqR ⟨R * Real.sin φ * Real.cos θ, R * Real.sin φ * Real.sin θ, R * Real.cos φ⟩
      = R ^ 2 := by
  have h1 := Real.sin_sq_add_cos_sq θ
  have h2 := Real.sin_sq_add_cos_sq φ
  simp only [normSqR]
  linear_combination (R ^ 2 * Real.sin φ ^ 2) * h1 + R ^ 2 * h2

/-- C8: every descriptor the layout generator produces has its scatter
position exactly on the sphere of the fixed explode radius 25: the
squared norm equals the squared radius in exact real arithmetic,
whatever values the random draws for theta and phi took. -/
theorem C8_scatter_magnitude (rand : ℕ → ℝ) (count : ℕ) (urls : List String)
    (i : ℕ) (p : ParticleR)
    (h : (generateTreeLayout rand count urls)[i]? = some p) :
    normSqR p.explodedPosition = explodeRadius ^ 2 := by
  have hi : i < count := by
    by_contra hn
    rw [List.getElem?_eq_none
      (by rw [generateTreeLayout, genGo_length]; omega)] at h
    exact Option.noConfusion h
  obtain ⟨kk, hk⟩ := genGo_getElem rand count urls count 0 0 i hi
  rw [Nat.zero_add] at hk
  rw [generateTreeLayout] at h
  rw [h] at hk
  have hp : p = mkParticle rand count urls i kk := Option.some.inj hk
  subst hp
  exact normSq_sphere explodeRadius (rand (kk + 1) * Real.pi * 2)
    (Real.arccos (rand (kk + 2) * 2 - 1))

theorem C8_scatter_magnitude_witness :
    normSqR (mkParticle (fun _ => 0) 1 [] 0 0).explodedPosition = explodeRadius ^ 2 :=
  C8_scatter_magnitude (fun _ => 0) 1 [] 0 (mkParticle (fun _ => 0) 1 [] 0 0) rfl

lemma genGo_media_binding (rand rand2 : ℕ → ℝ) (count count2 : ℕ)
    (urls : List String) :
    ∀ fuel i k k2,
      ((genGo rand count urls i k fuel).filter
          (fun p => decide (p.type = PType.PHOTO))).map (fun p => (p.id, p.textureUrl))
      = ((genGo rand2 count2 urls i k2 fuel).filter
          (fun p => decide (p.type = PType.PHOTO))).map (fun p => (p.id, p.textureUrl)) := by
  intro fuel
  induction fuel with
  | zero => intro i k k2; rfl
  | succ n ih =>
      intro i k k2
      by_cases h : i < urls.length
      · have t1 := mkParticle_type_photo rand count urls i k h
        have t2 := mkParticle_type_photo rand2 count2 urls i k2 h
        have u1 := mkParticle_texture rand count urls i k h
        have u2 := mkParticle_texture rand2 count2 urls i k2 h
        simp [genGo, List.filter_cons, t1, t2, mkParticle_id, u1, u2]
        exact ih (i + 1) (k + drawsUsed urls i) (k2 + drawsUsed urls i)
      · have t1 := mkParticle_type_ne_photo rand count urls i k h
        have t2 := mkParticle_type_ne_photo rand2 count2 urls i k2 h
        simp [genGo, List.filter_cons, t1, t2]
        exact ih (i + 1) (k + drawsUsed urls i) (k2 + drawsUsed urls i)

/-- C9 counterexample: a Media item the generator produced in one run
and the same item in a second run over the same count and media list do
not keep their scatter position: with one random stream constantly 0 and
another constantly one half, the scatter position of item 0 differs, so
the positions are re-randomized per invocation. -/
theorem C9_cex_media_position_rerandomized :
    ((generateTreeLayout (fun _ => 0) 1 ["a"]).map (fun p => p.explodedPosition))[0]?
      ≠ ((generateTreeLayout (fun _ => (1 : ℝ)/2) 1 ["a"]).map
          (fun p => p.explodedPosition))[0]? := by
  intro h
  have h0 : ((generateTreeLayout (fun _ => 0) 1 ["a"]).map
      (fun p => p.explodedPosition))[0]?
      = some (mkParticle (fun _ => 0) 1 ["a"] 0 0).explodedPosition := rfl
  have h1 : ((generateTreeLayout (fun _ => (1 : ℝ)/2) 1 ["a"]).map
      (fun p => p.explodedPosition))[0]?
      = some (mkParticle (fun _ => (1 : ℝ)/2) 1 ["a"] 0 0).explodedPosition := rfl
  rw [h0, h1] at h
  have hz : explodeRadius * Real.cos (Real.arccos ((0 : ℝ) * 2 - 1))
      = explodeRadius * Real.cos (Real.arccos ((1 : ℝ)/2 * 2 - 1)) :=
    congrArg Vec3R.z (Option.some.inj h)
  rw [show ((0 : ℝ) * 2 - 1) = -1 by norm_num,
    show ((1 : ℝ)/2 * 2 - 1) = 0 by norm_num,
    Real.arccos_neg_one, Real.arccos_zero, Real.cos_pi, Real.cos_pi_div_two] at hz
  rw [explodeRadius] at hz
  norm_num at hz

/-- C9 (amended): across two invocations with the same count and the
same media list the Media items are bound to the same handles in the
same order (the filtered list of id and texture handle pairs of photo
items is identical, whatever the two random streams), while the
positions of every item, Media included, are drawn fresh per invocation
and generally differ. -/
theorem C9_media_binding_stable (rand rand2 : ℕ → ℝ) (count : ℕ)
    (urls : List String) :
    ((generateTreeLayout rand count urls).filter
        (fun p => decide (p.type = PType.PHOTO))).map (fun p => (p.id, p.textureUrl))
    = ((generateTreeLayout rand2 count urls).filter
        (fun p => decide (p.type = PType.PHOTO))).map (fun p => (p.id, p.textureUrl)) :=
  genGo_media_binding rand rand2 count count urls count 0 0 0

/-- Exact rational 3 vector for the per frame animation state. -/
@[ext]
structure Vec3Q where
  x : ℚ
  y : ℚ
  z : ℚ
deriving DecidableEq

/-- THREE.Vector3.lerp: each component moves by (target - current)
times alpha, with no clamping of alpha whatsoever. -/
def lerpQ (a b : Vec3Q) (t : ℚ) : Vec3Q :=
  ⟨a.x + (b.x - a.x) * t, a.y + (b.y - a.y) * t, a.z + (b.z - a.z) * t⟩

/-- THREE.Vector3.add, componentwise. -/
def addQ (a b : Vec3Q) : Vec3Q := ⟨a.x + b.x, a.y + b.y, a.z + b.z⟩

/-- THREE.Vector3.multiplyScalar. -/
def smulQ (c : ℚ) (a : Vec3Q) : Vec3Q := ⟨c * a.x, c * a.y, c * a.z⟩

/-- Squared Euclidean distance between two animation vectors; it is
zero exactly at equality and is order equivalent to the distance
itself, so monotonicity statements about the distance are stated on
it. -/
def distSqQ (a b : Vec3Q) : ℚ :=
  (a.x - b.x) ^ 2 + (a.y - b.y) ^ 2 + (a.z - b.z) ^ 2

/-- The per item data the animator components read: id, the two stored
resting positions and the base scale. -/
structure ParticleA where
  id : ℕ
  treePosition : Vec3Q
  explodedPosition : Vec3Q
  scale : ℚ
deriving DecidableEq

/-- Position and scale state of one photo mesh. -/
structure MeshState where
  position : Vec3Q
  scaleV : Vec3Q
deriving DecidableEq

/-- One ParticleGroup.useFrame step for one particle: the target is
selected by mode, the EXPLODED branch clones the stored vector before
adding the ambient float offset (noiseX and noiseY are the sampled
values of sin(elapsedTime + id) * 0.5 and
cos(elapsedTime * 0.8 + id) * 0.5), and the smoothed position moves by
the lerp with factor delta * 3.  The particle record is returned
unchanged: this component never writes the stored positions. -/
def particleGroupFrame (mode : AppState) (p : ParticleA)
    (noiseX noiseY δ : ℚ) (cur : Vec3Q) : Vec3Q × ParticleA :=
  let target :=
    match mode with
    | AppState.TREE => p.treePosition
    | AppState.EXPLODED => addQ p.explodedPosition ⟨noiseX, noiseY, 0⟩
    | AppState.FOCUS => smulQ (3/2) p.explodedPosition
  (lerpQ cur target (δ * 3), p)

/-- One SinglePhoto.useFrame step.  In the EXPLODED branch the source
executes target.add(...) where target aliases
particle.explodedPosition, so the stored scatter position itself
receives the write; the returned particle carries it.  noiseY is the
sampled value of sin(elapsedTime + id) * 0.5.  The mesh position lerps
with factor delta * 3 and the scale vector with factor delta * 2. -/
def singlePhotoFrame (mode : AppState) (p : ParticleA) (noiseY δ : ℚ)
    (st : MeshState) : MeshState × ParticleA :=
  let tsp : Vec3Q × ℚ × ParticleA :=
    match mode with
    | AppState.TREE => (p.treePosition, 3/2, p)
    | AppState.EXPLODED =>
        let t := addQ p.explodedPosition ⟨0, noiseY, 0⟩
        (t, 3/2, { p with explodedPosition := t })
    | AppState.FOCUS =>
        if p.id % 5 = 0 then (⟨0, 0, 15⟩, 6, p)
        else (smulQ (3/2) p.explodedPosition, 1, p)
  (⟨lerpQ st.position tsp.1 (δ * 3),
    lerpQ st.scaleV ⟨tsp.2.1, tsp.2.1, tsp.2.1⟩ (δ * 2)⟩, tsp.2.2)

/-- C3: in the dispersed mode, one SinglePhoto frame with a nonzero
sampled float offset writes the offset target back into the stored
explodedPosition of the Media particle (the write compounds every
frame), while the corresponding ParticleGroup frame leaves its particle
record untouched.  Failing input: a Media particle with stored scatter
position (1, 2, 3), dispersed mode, an elapsed time with
sin(elapsedTime + id) = 1 so the sampled offset is 1/2, delta 1/100. -/
theorem C3_single_photo_mutates_scatter :
    (singlePhotoFrame AppState.EXPLODED ⟨7, ⟨0, 0, 0⟩, ⟨1, 2, 3⟩, 3/2⟩ (1/2) (1/100)
        ⟨⟨1, 2, 3⟩, ⟨1, 1, 1⟩⟩).2.explodedPosition = ⟨1, 5/2, 3⟩
    ∧ (singlePhotoFrame AppState.EXPLODED ⟨7, ⟨0, 0, 0⟩, ⟨1, 2, 3⟩, 3/2⟩ (1/2) (1/100)
        ⟨⟨1, 2, 3⟩, ⟨1, 1, 1⟩⟩).2.explodedPosition ≠ ⟨1, 2, 3⟩
    ∧ (particleGroupFrame AppState.EXPLODED ⟨7, ⟨0, 0, 0⟩, ⟨1, 2, 3⟩, 3/2⟩ (1/2) (1/2) (1/100)
        ⟨1, 2, 3⟩).2 = ⟨7, ⟨0, 0, 0⟩, ⟨1, 2, 3⟩, 3/2⟩ := by
  refine ⟨?_, ?_, rfl⟩
  · show addQ ⟨1, 2, 3⟩ ⟨0, 1/2, 0⟩ = ⟨1, 5/2, 3⟩
    norm_num [addQ]
  · show addQ ⟨1, 2, 3⟩ ⟨0, 1/2, 0⟩ ≠ ⟨1, 2, 3⟩
    norm_num [addQ]

/-- One position smoothing step with a fixed target, the lerp call of
the ParticleGroup and SinglePhoto frame handlers: factor delta * 3. -/
def pgStep (target : Vec3Q) (δ : ℚ) (cur : Vec3Q) : Vec3Q :=
  lerpQ cur target (δ * 3)

/-- n repeated smoothing steps toward a fixed target with a fixed
delta. -/
def advanceN (target : Vec3Q) (δ : ℚ) : ℕ → Vec3Q → Vec3Q
  | 0, cur => cur
  | n + 1, cur => advanceN target δ n (pgStep target δ cur)

lemma lerp_distSq (a b : Vec3Q) (t : ℚ) :
    distSqQ (lerpQ a b t) b = (1 - t) ^ 2 * distSqQ a b := by
  simp only [distSqQ, lerpQ]
  ring

lemma distSq_nonneg (a b : Vec3Q) : 0 ≤ distSqQ a b := by
  simp only [distSqQ]
  positivity

lemma distSq_eq_zero_iff (a b : Vec3Q) : distSqQ a b = 0 ↔ a = b := by
  constructor
  · intro h
    simp only [distSqQ] at h
    have hx : (a.x - b.x) ^ 2 = 0 := by
      nlinarith [sq_nonneg (a.y - b.y), sq_nonneg (a.z - b.z)]
    have hy : (a.y - b.y) ^ 2 = 0 := by
      nlinarith [sq_nonneg (a.x - b.x), sq_nonneg (a.z - b.z)]
    have hz : (a.z - b.z) ^ 2 = 0 := by
      nlinarith [sq_nonneg (a.x - b.x), sq_nonneg (a.y - b.y)]
    ext
    · have := pow_eq_zero_iff (n := 2) (by omega) |>.mp hx
      linarith [sub_eq_zero.mp this]
    · have := pow_eq_zero_iff (n := 2) (by omega) |>.mp hy
      linarith [sub_eq_zero.mp this]
    · have := pow_eq_zero_iff (n := 2) (by omega) |>.mp hz
      linarith [sub_eq_zero.mp this]
  · rintro rfl
    simp [distSqQ]

lemma advanceN_distSq (target : Vec3Q) (δ : ℚ) :
    ∀ n (cur : Vec3Q), distSqQ (advanceN target δ n cur) target
      = ((1 - δ * 3) ^ 2) ^ n * distSqQ cur target := by
  intro n
  induction n with
  | zero =>
      intro cur
      simp [advanceN]
  | succ m ih =>
      intro cur
      rw [advanceN, ih (pgStep target δ cur)]
      simp only [pgStep, lerp_distSq]
      ring

/-- C2 counterexample: the lerp factor is delta times the rate with no
clamping, so at deltaTime 1 (a positive delta) the position step jumps
from 0 past the target 1 to 3, and the squared distance to the target
grows from 1 to 4: the step overshoots and the distance is not
monotonically decreasing for every positive delta. -/
theorem C2_cex_overshoot :
    pgStep ⟨1, 0, 0⟩ 1 ⟨0, 0, 0⟩ = ⟨3, 0, 0⟩
    ∧ distSqQ (pgStep ⟨1, 0, 0⟩ 1 ⟨0, 0, 0⟩) ⟨1, 0, 0⟩ = 4
    ∧ distSqQ ⟨0, 0, 0⟩ ⟨1, 0, 0⟩ = 1
    ∧ ¬ distSqQ (pgStep ⟨1, 0, 0⟩ 1 ⟨0, 0, 0⟩) ⟨1, 0, 0⟩
        ≤ distSqQ ⟨0, 0, 0⟩ ⟨1, 0, 0⟩ := by
  norm_num [pgStep, lerpQ, distSqQ]

/-- C2 (amended): the step factor is deltaTime times the smoothing rate
(3 for position, 2 for scale) without clamping.  Whenever
deltaTime * 3 < 1 the position step contracts the squared distance to
the target by the factor (1 - delta * 3) squared, hence strictly
decreases it away from the target and never overshoots; iterating never
reaches the target exactly in finitely many steps unless it started
there, while the squared distance falls below every positive bound
after enough steps; the scale lerp with factor delta * 2 contracts the
same way. -/
theorem C2_smoothing_converges (cur target : Vec3Q) (δ : ℚ)
    (h0 : 0 < δ) (h1 : δ * 3 < 1) :
    distSqQ (pgStep target δ cur) target = (1 - δ * 3) ^ 2 * distSqQ cur target
    ∧ (cur ≠ target → distSqQ (pgStep target δ cur) target < distSqQ cur target)
    ∧ (cur ≠ target → ∀ n, advanceN target δ n cur ≠ target)
    ∧ (∀ ε : ℚ, 0 < ε → ∃ n, distSqQ (advanceN target δ n cur) target < ε)
    ∧ (∀ s t : Vec3Q, distSqQ (lerpQ s t (δ * 2)) t = (1 - δ * 2) ^ 2 * distSqQ s t) := by
  have hpos : (0 : ℚ) < 1 - δ * 3 := by linarith
  have hr0 : (0 : ℚ) < (1 - δ * 3) ^ 2 := by positivity
  have hr1 : (1 - δ * 3) ^ 2 < 1 := by nlinarith
  refine ⟨?_, ?_, ?_, ?_, ?_⟩
  · exact lerp_distSq cur target (δ * 3)
  · intro hne
    have hd : 0 < distSqQ cur target :=
      lt_of_le_of_ne (distSq_nonneg cur target)
        (fun h => hne ((distSq_eq_zero_iff cur target).mp h.symm))
    have step := lerp_distSq cur target (δ * 3)
    rw [show lerpQ cur target (δ * 3) = pgStep target δ cur from rfl] at step
    rw [step]
    nlinarith
  · intro hne n heq
    have hd : 0 < distSqQ cur target :=
      lt_of_le_of_ne (distSq_nonneg cur target)
        (fun h => hne ((distSq_eq_zero_iff cur target).mp h.symm))
    have hiter := advanceN_distSq target δ n cur
    rw [heq] at hiter
    have h00 : distSqQ target target = 0 := by simp [distSqQ]
    rw [h00] at hiter
    have hp : 0 < ((1 - δ * 3) ^ 2) ^ n * distSqQ cur target :=
      mul_pos (pow_pos hr0 n) hd
    linarith
  · intro ε hε
    rcases eq_or_lt_of_le (distSq_nonneg cur target) with hd | hd
    · refine ⟨0, ?_⟩
      rw [advanceN_distSq, ← hd]
      simpa using hε
    · obtain ⟨n, hn⟩ := exists_pow_lt_of_lt_one (div_pos hε hd) hr1
      refine ⟨n, ?_⟩
      rw [advanceN_distSq]
      calc ((1 - δ * 3) ^ 2) ^ n * distSqQ cur target
          < (ε / distSqQ cur target) * distSqQ cur target :=
            mul_lt_mul_of_pos_right hn hd
        _ = ε := div_mul_cancel₀ ε (ne_of_gt hd)
  · intro s t
    exact lerp_distSq s t (δ * 2)

theorem C2_smoothing_converges_witness :
    distSqQ (pgStep ⟨1, 0, 0⟩ (1/6) ⟨0, 0, 0⟩) ⟨1, 0, 0⟩
        = (1 - (1/6) * 3) ^ 2 * distSqQ ⟨0, 0, 0⟩ ⟨1, 0, 0⟩
    ∧ ((⟨0, 0, 0⟩ : Vec3Q) ≠ ⟨1, 0, 0⟩ →
        distSqQ (pgStep ⟨1, 0, 0⟩ (1/6) ⟨0, 0, 0⟩) ⟨1, 0, 0⟩
          < distSqQ ⟨0, 0, 0⟩ ⟨1, 0, 0⟩)
    ∧ ((⟨0, 0, 0⟩ : Vec3Q) ≠ ⟨1, 0, 0⟩ →
        ∀ n, advanceN ⟨1, 0, 0⟩ (1/6) n ⟨0, 0, 0⟩ ≠ ⟨1, 0, 0⟩)
    ∧ (∀ ε : ℚ, 0 < ε → ∃ n, distSqQ (advanceN ⟨1, 0, 0⟩ (1/6) n ⟨0, 0, 0⟩) ⟨1, 0, 0⟩ < ε)
    ∧ (∀ s t : Vec3Q, distSqQ (lerpQ s t ((1/6) * 2)) t = (1 - (1/6) * 2) ^ 2 * distSqQ s t) :=
  C2_smoothing_converges ⟨0, 0, 0⟩ ⟨1, 0, 0⟩ (1/6) (by simp) (by norm_num)

end GestureTree
